import Mathlib

/-!
A verification development for the punto layout-switcher daemon.

The Python sources are shallowly embedded: scancodes are natural numbers
(the Linux evdev codes the sources name symbolically), Python dicts become
association lists with insertion order and last-binding-wins semantics,
Python sets become `Finset ℕ`, and the stateful `InputAnalyzer`,
`Injector` and `PuntoService` classes become explicit state-passing
functions.  Python's Unicode `str.lower`, `str.upper`, `str.isalpha`,
`str.isupper` are modelled on the character repertoire the program works
with (ASCII plus the Cyrillic block U+0400–U+04FF); `float(...)` parsing
is modelled by `pyFloatOk` following the CPython float-literal grammar
over ASCII digits; the external `num2words` library is an abstract
function parameter.
-/

set_option maxRecDepth 4000

namespace Punto

/-! Linux evdev scancodes used by the sources (`evdev.ecodes`). -/

def KEY_BACKSPACE : Nat := 14
def KEY_TAB : Nat := 15
def KEY_Q : Nat := 16
def KEY_W : Nat := 17
def KEY_E : Nat := 18
def KEY_R : Nat := 19
def KEY_T : Nat := 20
def KEY_Y : Nat := 21
def KEY_U : Nat := 22
def KEY_I : Nat := 23
def KEY_O : Nat := 24
def KEY_P : Nat := 25
def KEY_LEFTBRACE : Nat := 26
def KEY_RIGHTBRACE : Nat := 27
def KEY_ENTER : Nat := 28
def KEY_LEFTCTRL : Nat := 29
def KEY_A : Nat := 30
def KEY_S : Nat := 31
def KEY_D : Nat := 32
def KEY_F : Nat := 33
def KEY_G : Nat := 34
def KEY_H : Nat := 35
def KEY_J : Nat := 36
def KEY_K : Nat := 37
def KEY_L : Nat := 38
def KEY_SEMICOLON : Nat := 39
def KEY_APOSTROPHE : Nat := 40
def KEY_LEFTSHIFT : Nat := 42
def KEY_Z : Nat := 44
def KEY_X : Nat := 45
def KEY_C : Nat := 46
def KEY_V : Nat := 47
def KEY_B : Nat := 48
def KEY_N : Nat := 49
def KEY_M : Nat := 50
def KEY_COMMA : Nat := 51
def KEY_DOT : Nat := 52
def KEY_SLASH : Nat := 53
def KEY_RIGHTSHIFT : Nat := 54
def KEY_LEFTALT : Nat := 56
def KEY_SPACE : Nat := 57
def KEY_RIGHTCTRL : Nat := 97
def KEY_RIGHTALT : Nat := 100
def KEY_PAUSE : Nat := 119
def KEY_LEFTMETA : Nat := 125
def KEY_RIGHTMETA : Nat := 126

/-- Embedding of `punto.core.layout.KEY_MAP`: scancode ↦ (EN char, RU char),
listed in the dict insertion order of the source (row 1, row 2, row 3). -/
def KEY_MAP : List (Nat × Char × Char) :=
  [ (KEY_Q, 'q', 'й'), (KEY_W, 'w', 'ц'), (KEY_E, 'e', 'у'), (KEY_R, 'r', 'к'),
    (KEY_T, 't', 'е'), (KEY_Y, 'y', 'н'), (KEY_U, 'u', 'г'), (KEY_I, 'i', 'ш'),
    (KEY_O, 'o', 'щ'), (KEY_P, 'p', 'з'), (KEY_LEFTBRACE, '[', 'х'),
    (KEY_RIGHTBRACE, ']', 'ъ'),
    (KEY_A, 'a', 'ф'), (KEY_S, 's', 'ы'), (KEY_D, 'd', 'в'), (KEY_F, 'f', 'а'),
    (KEY_G, 'g', 'п'), (KEY_H, 'h', 'р'), (KEY_J, 'j', 'о'), (KEY_K, 'k', 'л'),
    (KEY_L, 'l', 'д'), (KEY_SEMICOLON, ';', 'ж'), (KEY_APOSTROPHE, '\'', 'э'),
    (KEY_Z, 'z', 'я'), (KEY_X, 'x', 'ч'), (KEY_C, 'c', 'с'), (KEY_V, 'v', 'м'),
    (KEY_B, 'b', 'и'), (KEY_N, 'n', 'т'), (KEY_M, 'm', 'ь'),
    (KEY_COMMA, ',', 'б'), (KEY_DOT, '.', 'ю'), (KEY_SLASH, '/', '.') ]

/-- Lookup in `KEY_MAP` (`KEY_MAP.get(code)` / `code in KEY_MAP`). -/
def keyChars (code : Nat) : Option (Char × Char) :=
  (KEY_MAP.find? (fun p => p.1 == code)).map Prod.snd

/-- Total rendering of one scancode in layout 0; by the buffer invariant the
default branch is unreachable when the code is in `KEY_MAP`. -/
def primaryChar (code : Nat) : Char := ((keyChars code).getD ('?', '?')).1

/-- Total rendering of one scancode in layout 1. -/
def secondaryChar (code : Nat) : Char := ((keyChars code).getD ('?', '?')).2

/-! Python string/character primitives, modelled on ASCII plus the Cyrillic
block (the repertoire of `KEY_MAP` and the converters). -/

/-- Python `str.lower` on one character (ASCII letters, Cyrillic А–Я and Ё). -/
def toLowerPyChar (c : Char) : Char :=
  let n := c.toNat
  if 65 ≤ n ∧ n ≤ 90 then Char.ofNat (n + 32)
  else if n = 0x401 then Char.ofNat 0x451
  else if 0x410 ≤ n ∧ n ≤ 0x42F then Char.ofNat (n + 32)
  else c

/-- Python `str.upper` on one character. -/
def toUpperPyChar (c : Char) : Char :=
  let n := c.toNat
  if 97 ≤ n ∧ n ≤ 122 then Char.ofNat (n - 32)
  else if n = 0x451 then Char.ofNat 0x401
  else if 0x430 ≤ n ∧ n ≤ 0x44F then Char.ofNat (n - 32)
  else c

/-- Python `str.isalpha` on one character (ASCII letters and Cyrillic). -/
def isAlphaPy (c : Char) : Bool :=
  let n := c.toNat
  (97 ≤ n && n ≤ 122) || (65 ≤ n && n ≤ 90) ||
    (0x430 ≤ n && n ≤ 0x44F) || (0x410 ≤ n && n ≤ 0x42F) ||
    n == 0x451 || n == 0x401

/-- Python single-character `str.islower` test. -/
def isLowerPy (c : Char) : Bool :=
  let n := c.toNat
  (97 ≤ n && n ≤ 122) || (0x430 ≤ n && n ≤ 0x44F) || n == 0x451

/-- Python single-character `str.isupper` test. -/
def isUpperPy (c : Char) : Bool :=
  let n := c.toNat
  (65 ≤ n && n ≤ 90) || (0x410 ≤ n && n ≤ 0x42F) || n == 0x401

/-- Python `str.lower` on a string. -/
def toLowerPy (s : String) : String := String.mk (s.data.map toLowerPyChar)

/-! Embedding of `punto.core.detector.LanguageDetector`. -/

/-- The two language tags the detector distinguishes (the source uses the
strings `"en"` and `"ru"`). -/
inductive Lang where
  | en
  | ru
deriving DecidableEq, Repr

def en_vowels : List Char := ['a', 'e', 'i', 'o', 'u', 'y']

def ru_vowels : List Char := ['а', 'е', 'ё', 'и', 'о', 'у', 'ы', 'э', 'ю', 'я']

def langVowels : Lang → List Char
  | .en => en_vowels
  | .ru => ru_vowels

/-- Consonant-cluster limit per language in `_score_structure`. -/
def langLimit : Lang → Nat
  | .en => 5
  | .ru => 4

/-- The (current, maximum) consecutive-consonant counters after walking the
given characters, skipping non-alphabetic characters, as the loop body of
`LanguageDetector._score_structure` does. -/
def consonantRun (vowels : List Char) (cs : List Char) : Nat × Nat :=
  cs.foldl
    (fun st c =>
      if !isAlphaPy c then st
      else if vowels.contains c then (0, st.2)
      else (st.1 + 1, max st.2 (st.1 + 1)))
    (0, 0)

/-- Embedding of `LanguageDetector._score_structure`. -/
def score_structure (text : String) (lang : Lang) : Int :=
  if text.isEmpty then 0
  else
    let vowels := langVowels lang
    let low := (toLowerPy text).data
    let maxRun := (consonantRun vowels low).2
    if maxRun > langLimit lang then -10
    else if text.length > 4 && !(low.any (fun c => vowels.contains c)) then -5
    else 5

/-- Embedding of `LanguageDetector.analyze`. -/
def analyze (en_text ru_text : String) : Option Lang :=
  let score_en := score_structure en_text .en
  let score_ru := score_structure ru_text .ru
  if score_en > 0 ∧ score_ru < 0 then some .en
  else if score_ru > 0 ∧ score_en < 0 then some .ru
  else none

/-! Embedding of `punto.daemon.analyzer`. -/

/-- The `ActionType` enum of `punto.daemon.analyzer`. -/
inductive ActionType where
  | NONE
  | SWITCH_LAYOUT
  | CORRECT_WRONG_LAYOUT
  | LAYOUT_CHANGED
  | TRANSLITERATE
  | INVERT_CASE
  | NUM_TO_WORDS
  | REPLACE_TEXT
deriving DecidableEq, Repr

/-- The `AnalysisResult` dataclass; `confidence` is an exact rational standing
for the Python float (the code only ever uses 0, 0.8 and 1.0). -/
structure AnalysisResult where
  action : ActionType
  target_layout_index : Nat := 0
  confidence : ℚ := 0
  payload : Option (List Nat) := none
  text_payload : Option String := none
deriving DecidableEq, Repr

def noneResult : AnalysisResult := { action := .NONE }

/-- State of the `InputAnalyzer` class.  The Python dicts `autocorrect` and
`autoreplace` are association lists in insertion order; `active_modifiers`
is a Python set. -/
structure InputAnalyzer where
  buffer : List Nat := []
  active_modifiers : Finset Nat := ∅
  autocorrect : List (String × String) := []
  autoreplace : List (String × String) := []
  switch_hotkey : List Nat := []
  paused : Bool := false

/-- Python dict membership/lookup over an insertion-ordered association list
whose keys are distinct (string dicts loaded from JSON). -/
def dictGet (d : List (String × String)) (k : String) : Option String :=
  (d.find? (fun p => p.1 == k)).map Prod.snd

def InputAnalyzer.reset (a : InputAnalyzer) : InputAnalyzer := { a with buffer := [] }

/-- Embedding of `InputAnalyzer.set_paused` (logging dropped). -/
def InputAnalyzer.set_paused (a : InputAnalyzer) (value : Bool) : InputAnalyzer :=
  if value && !a.paused then { a.reset with paused := value }
  else { a with paused := value }

/-- The modifier scancodes recognized by `process_key`. -/
def modifier_keys : List Nat :=
  [KEY_LEFTSHIFT, KEY_RIGHTSHIFT, KEY_LEFTCTRL, KEY_RIGHTCTRL,
   KEY_LEFTALT, KEY_RIGHTALT, KEY_LEFTMETA, KEY_RIGHTMETA]

/-- The word-boundary scancodes of `process_key`. -/
def word_boundary_keys : List Nat :=
  [KEY_SPACE, KEY_ENTER, KEY_TAB, KEY_COMMA, KEY_DOT]

/-- The manual switch-chord test of `process_key`: the scancode equals the
last element of `switch_hotkey` and every prior element is currently held. -/
def chordFires (a : InputAnalyzer) (key_code : Nat) : Bool :=
  !a.switch_hotkey.isEmpty && a.switch_hotkey.getLast? == some key_code &&
    a.switch_hotkey.dropLast.all (fun m => decide (m ∈ a.active_modifiers))

/-- Layout-0 rendering of a buffer (`"".join(KEY_MAP[k][0] ...)`). -/
def en_render (buffer : List Nat) : String := String.mk (buffer.map primaryChar)

/-- Layout-1 rendering of a buffer (`"".join(KEY_MAP[k][1] ...)`). -/
def ru_render (buffer : List Nat) : String := String.mk (buffer.map secondaryChar)

/-- Embedding of `InputAnalyzer._check_replacements`. -/
def InputAnalyzer.check_replacements (a : InputAnalyzer) : Option AnalysisResult :=
  if a.buffer.isEmpty then none
  else
    let en_word := en_render a.buffer
    let ru_word := ru_render a.buffer
    match dictGet a.autoreplace en_word with
    | some t => some { action := .REPLACE_TEXT, payload := some a.buffer,
                       text_payload := some t, confidence := 1 }
    | none =>
      match dictGet a.autoreplace ru_word with
      | some t => some { action := .REPLACE_TEXT, payload := some a.buffer,
                         text_payload := some t, confidence := 1 }
      | none =>
        match dictGet a.autocorrect en_word with
        | some t => some { action := .REPLACE_TEXT, payload := some a.buffer,
                           text_payload := some t, confidence := 1 }
        | none =>
          match dictGet a.autocorrect ru_word with
          | some t => some { action := .REPLACE_TEXT, payload := some a.buffer,
                             text_payload := some t, confidence := 1 }
          | none => none

/-- Embedding of `InputAnalyzer._analyze_buffer`. -/
def InputAnalyzer.analyze_buffer (a : InputAnalyzer) : AnalysisResult :=
  if a.buffer.length < 3 then noneResult
  else
    match analyze (en_render a.buffer) (ru_render a.buffer) with
    | some .ru => { action := .SWITCH_LAYOUT, target_layout_index := 1,
                    confidence := 4/5, payload := some a.buffer }
    | some .en => { action := .SWITCH_LAYOUT, target_layout_index := 0,
                    confidence := 4/5, payload := some a.buffer }
    | none => noneResult

/-- Embedding of `InputAnalyzer.process_key` (value: 0 up, 1 down, 2 repeat).
Returns the `AnalysisResult` and the updated analyzer state. -/
def InputAnalyzer.process_key (a : InputAnalyzer) (key_code value : Nat) :
    AnalysisResult × InputAnalyzer :=
  if a.paused then (noneResult, a)
  else if key_code ∈ modifier_keys then
    if value = 1 then
      (noneResult, { a with active_modifiers := insert key_code a.active_modifiers })
    else if value = 0 then
      (noneResult, { a with active_modifiers := a.active_modifiers.erase key_code })
    else (noneResult, a)
  else if value = 0 then (noneResult, a)
  else if chordFires a key_code then ({ action := .LAYOUT_CHANGED }, a.reset)
  else if key_code = KEY_PAUSE then
    let lctrl := decide (KEY_LEFTCTRL ∈ a.active_modifiers)
    let lshift := decide (KEY_LEFTSHIFT ∈ a.active_modifiers)
    let lalt := decide (KEY_LEFTALT ∈ a.active_modifiers)
    let act : ActionType :=
      if lctrl && lshift then .TRANSLITERATE
      else if lctrl then .INVERT_CASE
      else if lalt then .NUM_TO_WORDS
      else if lshift then .INVERT_CASE
      else .CORRECT_WRONG_LAYOUT
    if a.buffer.isEmpty then ({ action := act }, a)
    else ({ action := act, payload := some a.buffer }, a)
  else if key_code = KEY_BACKSPACE then
    (noneResult, { a with buffer := a.buffer.dropLast })
  else if key_code ∈ word_boundary_keys then
    match a.check_replacements with
    | some res => (res, a.reset)
    | none => (noneResult, a.reset)
  else if (keyChars key_code).isNone then (noneResult, a.reset)
  else
    let a2 := { a with buffer := a.buffer ++ [key_code] }
    (a2.analyze_buffer, a2)

/-- Run a list of `(scancode, value)` events through the analyzer, collecting
the per-event results. -/
def analyzerRun (a : InputAnalyzer) (evs : List (Nat × Nat)) :
    List AnalysisResult × InputAnalyzer :=
  match evs with
  | [] => ([], a)
  | e :: rest =>
    let pr := a.process_key e.1 e.2
    let t := analyzerRun pr.2 rest
    (pr.1 :: t.1, t.2)

/-! Embedding of `punto.core.converters`. -/

/-- The `(EN, RU)` translation pairs in construction order: for each key of
`KEY_MAP`, the lower-case pair then the upper-case pair (`_EN_CHARS` /
`_RU_CHARS` zipped). -/
def transPairsEnRu : List (Char × Char) :=
  (KEY_MAP.map (fun p =>
    [(p.2.1, p.2.2), (toUpperPyChar p.2.1, toUpperPyChar p.2.2)])).flatten

/-- The `(RU, EN)` translation pairs in construction order. -/
def transPairsRuEn : List (Char × Char) :=
  (KEY_MAP.map (fun p =>
    [(p.2.2, p.2.1), (toUpperPyChar p.2.2, toUpperPyChar p.2.1)])).flatten

/-- Lookup in a Python dict built from a pair list in order: the last binding
of a key wins (`str.maketrans` fills a dict positionally). -/
def dictLast (ps : List (Char × Char)) (c : Char) : Option Char :=
  (ps.reverse.find? (fun p => p.1 == c)).map Prod.snd

/-- The merged table `{**_TRANS_EN_TO_RU, **_TRANS_RU_TO_EN}`: bindings of the
RU→EN table override those of the EN→RU table. -/
def full_table (c : Char) : Option Char :=
  match dictLast transPairsRuEn c with
  | some r => some r
  | none => dictLast transPairsEnRu c

/-- One character of `str.translate` under `full_table` (unmapped characters
pass through). -/
def switchChar (c : Char) : Char := (full_table c).getD c

/-- Embedding of `punto.core.converters.switch_layout`. -/
def switch_layout (text : String) : String := String.mk (text.data.map switchChar)

/-- Python `str.capitalize` restricted to the transliteration values (ASCII). -/
def capitalizePy (s : String) : String :=
  match s.data with
  | [] => ""
  | c :: rest => String.mk (toUpperPyChar c :: rest.map toLowerPyChar)

/-- The `ru_to_lat` base map of `converters.transliterate`, in source order. -/
def ru_to_lat : List (Char × String) :=
  [('а', "a"), ('б', "b"), ('в', "v"), ('г', "g"), ('д', "d"), ('е', "e"),
   ('ё', "yo"), ('ж', "zh"), ('з', "z"), ('и', "i"), ('й', "y"), ('к', "k"),
   ('л', "l"), ('м', "m"), ('н', "n"), ('о', "o"), ('п', "p"), ('р', "r"),
   ('с', "s"), ('т', "t"), ('у', "u"), ('ф', "f"), ('х', "kh"), ('ц', "ts"),
   ('ч', "ch"), ('ш', "sh"), ('щ', "sch"), ('ъ', ""), ('ы', "y"), ('ь', ""),
   ('э', "e"), ('ю', "yu"), ('я', "ya")]

/-- The case-extended transliteration map `ru_to_lat_full`. -/
def ru_to_lat_full : List (Char × String) :=
  (ru_to_lat.map (fun p => [(p.1, p.2), (toUpperPyChar p.1, capitalizePy p.2)])).flatten

/-- Embedding of `punto.core.converters.transliterate`. -/
def transliterate (text : String) : String :=
  String.join (text.data.map (fun c =>
    ((ru_to_lat_full.find? (fun p => p.1 == c)).map Prod.snd).getD (String.singleton c)))

/-- One character of Python `str.swapcase`. -/
def swapcasePyChar (c : Char) : Char :=
  if isLowerPy c then toUpperPyChar c
  else if isUpperPy c then toLowerPyChar c
  else c

/-- Embedding of `punto.core.converters.invert_case` (`str.swapcase`). -/
def invert_case (text : String) : String := String.mk (text.data.map swapcasePyChar)

/-! CPython `float(...)` literal recognition over ASCII, for
`converters.number_to_text`. -/

/-- After an initial digit: digits with single underscores strictly between
digits, as CPython numeric parsing accepts. -/
def digitRunFrom : List Char → Bool
  | [] => true
  | '_' :: c :: rest => c.isDigit && digitRunFrom rest
  | ['_'] => false
  | c :: rest => c.isDigit && digitRunFrom rest

/-- A non-empty digit run (underscores allowed strictly between digits). -/
def digitRun : List Char → Bool
  | [] => false
  | c :: rest => c.isDigit && digitRunFrom rest

/-- Split a character list at the first occurrence of `t`. -/
def breakAt (t : Char) : List Char → Option (List Char × List Char)
  | [] => none
  | c :: rest =>
    if c = t then some ([], rest)
    else (breakAt t rest).map (fun p => (c :: p.1, p.2))

/-- Drop one leading sign character. -/
def dropSign : List Char → List Char
  | [] => []
  | c :: rest => if c = '+' ∨ c = '-' then rest else c :: rest

/-- The mantissa of a float literal: `D`, `D.`, `.D` or `D.D`. -/
def mantissaOk (cs : List Char) : Bool :=
  match breakAt '.' cs with
  | none => digitRun cs
  | some (ip, fp) =>
    if ip.isEmpty then digitRun fp
    else if fp.isEmpty then digitRun ip
    else digitRun ip && digitRun fp

/-- Whether CPython `float(s)` succeeds on an already-stripped string
(decimal literals with optional sign and exponent, `inf`, `infinity`,
`nan`; case-insensitive). -/
def pyFloatOk (s : String) : Bool :=
  let cs := dropSign (toLowerPy s).data
  if cs == "inf".data || cs == "infinity".data || cs == "nan".data then true
  else
    match breakAt 'e' cs with
    | none => mantissaOk cs
    | some (m, e) => mantissaOk m && digitRun (dropSign e)

/-- Python whitespace stripped by `str.strip()` (ASCII repertoire). -/
def isSpacePy (c : Char) : Bool :=
  c == ' ' || c == '\t' || c == '\n' || c == '\r' || c.toNat == 11 || c.toNat == 12

/-- The `text.replace(',', '.').strip()` preprocessing of `number_to_text`. -/
def cleanNumeric (text : String) : String :=
  String.mk ((((text.data.map (fun c => if c = ',' then '.' else c)).dropWhile
    isSpacePy).reverse.dropWhile isSpacePy).reverse)

/-- Embedding of `punto.core.converters.number_to_text`.  The external
`num2words` library is an abstract parameter `n2w`, applied to the cleaned
numeric string; a failed `float(...)` parse returns `none` exactly as the
source's `except ValueError` branch does. -/
def number_to_text (n2w : String → String) (text : String) : Option String :=
  let clean_text := cleanNumeric text
  if pyFloatOk clean_text then some (n2w clean_text) else none

/-! Embedding of `punto.daemon.injector`.  The uinput virtual keyboard is a
state recording its successful key writes in order; `failing` says which
write attempts raise `OSError` (the source catches the error in
`send_key` and logs it).  `syn()` emissions carry no claim-relevant
information and are not recorded. -/

structure UinputDevice where
  attempts : Nat := 0
  failing : Nat → Bool := fun _ => false
  log : List (Nat × Nat) := []

/-- One `self._ui.write(EV_KEY, code, value)`; the returned flag is true when
the write raised `OSError`. -/
def UinputDevice.wr (d : UinputDevice) (code value : Nat) : UinputDevice × Bool :=
  if d.failing d.attempts then ({ d with attempts := d.attempts + 1 }, true)
  else ({ d with attempts := d.attempts + 1, log := d.log ++ [(code, value)] }, false)

/-- Embedding of `Injector.send_key`: the `try` block writes the press and
then the release; an `OSError` aborts the rest of this call only. -/
def send_key (d : UinputDevice) (key_code : Nat) (press rel : Bool) : UinputDevice :=
  if press then
    let pr := d.wr key_code 1
    if pr.2 then pr.1
    else if rel then (pr.1.wr key_code 0).1 else pr.1
  else if rel then (d.wr key_code 0).1 else d

/-- Embedding of `Injector.send_combo`. -/
def send_combo (d : UinputDevice) (modifiers : List Nat) (key : Nat) : UinputDevice :=
  let d1 := modifiers.foldl (fun dv m => send_key dv m true false) d
  let d2 := send_key d1 key true true
  modifiers.reverse.foldl (fun dv m => send_key dv m false true) d2

/-- Embedding of `Injector.backspace`. -/
def backspace (d : UinputDevice) : Nat → UinputDevice
  | 0 => d
  | n + 1 => backspace (send_key d KEY_BACKSPACE true true) n

/-- Embedding of `Injector.switch_layout` (press the chord in order, release
in reverse order). -/
def Injector.switch_layout (d : UinputDevice) (switch_keys : List Nat) : UinputDevice :=
  let d1 := switch_keys.foldl (fun dv k => send_key dv k true false) d
  switch_keys.reverse.foldl (fun dv k => send_key dv k false true) d1

/-- Embedding of `Injector.type_sequence`. -/
def type_sequence (d : UinputDevice) (key_codes : List Nat) : UinputDevice :=
  key_codes.foldl (fun dv k => send_key dv k true true) d

/-- Embedding of `punto.core.layout_utils.CHAR_TO_KEYCODE` lookup (built
inserting, per key, the EN char then the RU char; last binding wins). -/
def charToKeycode (c : Char) : Option Nat :=
  (((KEY_MAP.map (fun p => [(p.2.1, p.1), (p.2.2, p.1)])).flatten).reverse.find?
    (fun p => p.1 == c)).map Prod.snd

/-- Embedding of `layout_utils.get_sequence_for_char`. -/
def get_sequence_for_char (char : Char) : Option (Nat × Bool) :=
  match charToKeycode (toLowerPyChar char) with
  | none => none
  | some code => some (code, isUpperPy char)

/-- Embedding of `Injector.type_string` (characters with no keycode are
skipped with a warning). -/
def type_string (d : UinputDevice) (text : String) : UinputDevice :=
  text.data.foldl
    (fun dv c =>
      match get_sequence_for_char c with
      | some (code, shift) =>
        if shift then
          let d1 := send_key dv KEY_LEFTSHIFT true false
          let d2 := send_key d1 code true true
          send_key d2 KEY_LEFTSHIFT false true
        else send_key dv code true true
      | none => dv)
    d

/-! Embedding of `punto.daemon.service.PuntoService` (the event-dispatch and
switch-realization logic; sound playback and logging are dropped). -/

structure PuntoService where
  analyzer : InputAnalyzer
  dev : UinputDevice := {}
  current_layout_index : Nat := 0
  layout_switch_hotkey : List Nat := [KEY_LEFTMETA, KEY_SPACE]

/-- Embedding of `PuntoService._perform_switch`. -/
def PuntoService.perform_switch (s : PuntoService) (key_codes : List Nat) : PuntoService :=
  let d1 := backspace s.dev key_codes.length
  let d2 := Injector.switch_layout d1 s.layout_switch_hotkey
  let layout := 1 - s.current_layout_index
  let d3 := type_sequence d2 key_codes
  { s with dev := d3, current_layout_index := layout, analyzer := s.analyzer.reset }

/-- Python truthiness of `res.payload` (`None` and `[]` are falsy). -/
def payloadTruthy (res : AnalysisResult) : Bool :=
  match res.payload with
  | some (_ :: _) => true
  | _ => false

/-- Python truthiness of `res.text_payload`. -/
def textTruthy (res : AnalysisResult) : Bool :=
  match res.text_payload with
  | some t => !t.isEmpty
  | none => false

/-- The result-dispatch part of `PuntoService.on_input_event`, acting on a
state whose analyzer has already processed the event.  The empty-payload
manual actions spawn the asynchronous selection round-trip, which touches
only the clipboard and the virtual keyboard and is modelled separately by
`perform_selection_correction`. -/
def PuntoService.dispatch (s : PuntoService) (res : AnalysisResult) : PuntoService :=
  if res.action = .LAYOUT_CHANGED then
    { s with current_layout_index := 1 - s.current_layout_index }
  else if res.action = .SWITCH_LAYOUT ∧ payloadTruthy res then
    if res.target_layout_index ≠ s.current_layout_index then
      s.perform_switch (res.payload.getD [])
    else s
  else if res.action = .REPLACE_TEXT ∧ payloadTruthy res ∧ textTruthy res then
    let p := res.payload.getD []
    let d1 := backspace s.dev (p.length + 1)
    { s with dev := type_string d1 (res.text_payload.getD "") }
  else if res.action = .CORRECT_WRONG_LAYOUT ∨ res.action = .TRANSLITERATE ∨
      res.action = .INVERT_CASE ∨ res.action = .NUM_TO_WORDS then
    if payloadTruthy res then
      if res.action = .CORRECT_WRONG_LAYOUT then s.perform_switch (res.payload.getD [])
      else s
    else s
  else s

/-- Embedding of `PuntoService.on_input_event` for an `EV_KEY` event. -/
def PuntoService.on_input_event (s : PuntoService) (code value : Nat) : PuntoService :=
  let pr := s.analyzer.process_key code value
  PuntoService.dispatch { s with analyzer := pr.2 } pr.1

/-- Run a list of `(scancode, value)` events through the service. -/
def runEvents (s : PuntoService) (evs : List (Nat × Nat)) : PuntoService :=
  evs.foldl (fun st e => st.on_input_event e.1 e.2) s

/-! Embedding of `PuntoService._perform_selection_correction`.  The clipboard
collaborator is the `clipboard` field: `none` models a failed or timed-out
read (`get_text` returning `None`); after `set_text` it holds the written
text. -/

structure SelectionState where
  dev : UinputDevice := {}
  clipboard : Option String := none

/-- The `new_text` computation of `_perform_selection_correction`, including
the `val if val else text` truthiness for `NUM_TO_WORDS`. -/
def selection_transform (n2w : String → String) (act : ActionType) (text : String) : String :=
  if act = .TRANSLITERATE then transliterate text
  else if act = .INVERT_CASE then invert_case text
  else if act = .NUM_TO_WORDS then
    match number_to_text n2w text with
    | some v => if v = "" then text else v
    | none => text
  else switch_layout text

/-- Embedding of `PuntoService._perform_selection_correction`: copy combo,
clipboard read, pure transform, abort on no change, else write and paste. -/
def perform_selection_correction (n2w : String → String) (s : SelectionState)
    (act : ActionType) : SelectionState :=
  let d1 := send_combo s.dev [KEY_LEFTCTRL] KEY_C
  match s.clipboard with
  | none => { s with dev := d1 }
  | some text =>
    if text.isEmpty then { s with dev := d1 }
    else
      let new_text := selection_transform n2w act text
      if new_text = text then { s with dev := d1 }
      else
        { dev := send_combo d1 [KEY_LEFTCTRL] KEY_V, clipboard := some new_text }

/-- The abort test of the selection round-trip, matching the source's early
returns: empty read, or a transform that changed nothing. -/
def selection_aborts (n2w : String → String) (clip : Option String)
    (act : ActionType) : Bool :=
  match clip with
  | none => true
  | some text => text == "" || selection_transform n2w act text == text

/-! Specification-side definitions, written from the specification's words,
to be compared with the code embeddings above. -/

/-- The structural score as the specification words it: walk the characters
of the (case-folded) string, ignore non-alphabetic ones, track the maximum
consecutive-consonant run; return −10 if that maximum exceeds the language
limit, else −5 if the string is longer than 4 characters and contains no
vowels, otherwise +5.  Unlike the code, it says nothing special about the
empty string. -/
def score_spec (text : String) (lang : Lang) : Int :=
  let low := (toLowerPy text).data
  let maxRun := (consonantRun (langVowels lang) low).2
  if maxRun > langLimit lang then -10
  else if 4 < text.length ∧ ∀ c ∈ low, c ∉ langVowels lang then -5
  else 5

/-- The word-boundary lookup as the specification words it: the layout-0
rendering of the buffer in `autoreplace`, then the layout-1 rendering in
`autoreplace`, then the layout-0 rendering in `autocorrect`, then the
layout-1 rendering in `autocorrect`; the first hit wins. -/
def boundary_lookup_spec (a : InputAnalyzer) : Option String :=
  match dictGet a.autoreplace (en_render a.buffer) with
  | some t => some t
  | none =>
    match dictGet a.autoreplace (ru_render a.buffer) with
    | some t => some t
    | none =>
      match dictGet a.autocorrect (en_render a.buffer) with
      | some t => some t
      | none => dictGet a.autocorrect (ru_render a.buffer)

/-- The PAUSE-hotkey action selection by held left modifiers, as the claim's
table reads after restriction to the left-hand variants the code consults. -/
def hotkey_action_spec (mods : Finset Nat) : ActionType :=
  if KEY_LEFTCTRL ∈ mods ∧ KEY_LEFTSHIFT ∈ mods then .TRANSLITERATE
  else if KEY_LEFTCTRL ∈ mods then .INVERT_CASE
  else if KEY_LEFTALT ∈ mods then .NUM_TO_WORDS
  else if KEY_LEFTSHIFT ∈ mods then .INVERT_CASE
  else .CORRECT_WRONG_LAYOUT

/-- The manual switch-chord condition as the claim words it: `switch_chord`
is non-empty, the scancode is its last element, and every prior element is
currently held. -/
def chord_completes_spec (a : InputAnalyzer) (key_code : Nat) : Prop :=
  a.switch_hotkey ≠ [] ∧ a.switch_hotkey.getLast? = some key_code ∧
    ∀ m ∈ a.switch_hotkey.dropLast, m ∈ a.active_modifiers

/-- The full alphabet of the Layout Table as the involution claim words it:
the primary and secondary characters of every key, in either case. -/
def layout_alphabet : List Char :=
  (KEY_MAP.map (fun p =>
    [p.2.1, toUpperPyChar p.2.1, p.2.2, toUpperPyChar p.2.2])).flatten

/-- The scancodes of the 26 letter keys of the layout table. -/
def letter_key_codes : List Nat :=
  [KEY_Q, KEY_W, KEY_E, KEY_R, KEY_T, KEY_Y, KEY_U, KEY_I, KEY_O, KEY_P,
   KEY_A, KEY_S, KEY_D, KEY_F, KEY_G, KEY_H, KEY_J, KEY_K, KEY_L,
   KEY_Z, KEY_X, KEY_C, KEY_V, KEY_B, KEY_N, KEY_M]

/-- The characters produced by the letter keys in both layouts and both
cases: the largest alphabet on which the layout-switch transform is an
involution (the punctuation-paired characters `[ ] ; ' , . /` and
`х ъ ж э б ю` break it). -/
def letter_alphabet : List Char :=
  ((KEY_MAP.filter (fun p => p.1 ∈ letter_key_codes)).map
    (fun p => [p.2.1, toUpperPyChar p.2.1, p.2.2, toUpperPyChar p.2.2])).flatten

/-! Theorems. -/

/-- C1, counterexample: feeding key-downs G, H, B, D, T to a fresh Analyzer
(switch chord Meta+Space), the fifth key already returns `SWITCH_LAYOUT`
with payload `[G, H, B, D, T]` and target layout 1 — refuting the claim
that the first five keys return `NONE` and the switch happens on the
sixth. -/
theorem C1_counterexample :
    ((analyzerRun { switch_hotkey := [KEY_LEFTMETA, KEY_SPACE] }
        [(KEY_G, 1), (KEY_H, 1), (KEY_B, 1), (KEY_D, 1), (KEY_T, 1)]).1.map
      (fun r => (r.action, r.target_layout_index, r.payload))) =
      [(.NONE, 0, none), (.NONE, 0, none), (.NONE, 0, none), (.NONE, 0, none),
       (.SWITCH_LAYOUT, 1, some [KEY_G, KEY_H, KEY_B, KEY_D, KEY_T])] ∧
    ActionType.SWITCH_LAYOUT ≠ ActionType.NONE := by
  decide

/-- C1, amended: on the gibberish scancodes G, H, B, D, T, N from a fresh
Analyzer and shadow layout 0, the first four keys return `NONE`; on the
fifth key the Analyzer returns `SWITCH_LAYOUT` with payload
`[G, H, B, D, T]` and target layout 1; the Executor emits `backspace(5)`,
the Meta+Space switch chord, and retypes the five scancodes; the shadow
layout flips 0 → 1 and the buffer is reset, so the sixth key returns
`NONE`. -/
theorem C1_amended_thm :
    let s0 : PuntoService := { analyzer := { switch_hotkey := [KEY_LEFTMETA, KEY_SPACE] } }
    let evs : List (Nat × Nat) := [(KEY_G, 1), (KEY_H, 1), (KEY_B, 1), (KEY_D, 1), (KEY_T, 1)]
    let tr := analyzerRun s0.analyzer evs
    let s := runEvents s0 evs
    (tr.1.map (fun r => (r.action, r.target_layout_index, r.payload))) =
      [(.NONE, 0, none), (.NONE, 0, none), (.NONE, 0, none), (.NONE, 0, none),
       (.SWITCH_LAYOUT, 1, some [KEY_G, KEY_H, KEY_B, KEY_D, KEY_T])] ∧
    s.dev.log =
      [(KEY_BACKSPACE, 1), (KEY_BACKSPACE, 0), (KEY_BACKSPACE, 1), (KEY_BACKSPACE, 0),
       (KEY_BACKSPACE, 1), (KEY_BACKSPACE, 0), (KEY_BACKSPACE, 1), (KEY_BACKSPACE, 0),
       (KEY_BACKSPACE, 1), (KEY_BACKSPACE, 0),
       (KEY_LEFTMETA, 1), (KEY_SPACE, 1), (KEY_SPACE, 0), (KEY_LEFTMETA, 0),
       (KEY_G, 1), (KEY_G, 0), (KEY_H, 1), (KEY_H, 0), (KEY_B, 1), (KEY_B, 0),
       (KEY_D, 1), (KEY_D, 0), (KEY_T, 1), (KEY_T, 0)] ∧
    s.current_layout_index = 1 ∧
    s.analyzer.buffer = [] ∧
    (s.analyzer.process_key KEY_N 1).1 = noneResult := by
  decide

/-- C2, counterexample: on the empty string the code's structural score is 0
while the claimed formula yields +5. -/
theorem C2_counterexample :
    score_structure "" .en = 0 ∧ score_spec "" .en = 5 ∧ (0 : Int) ≠ 5 := by
  decide

/-- C3, counterexample: a word-boundary key-down that completes the switch
chord (Space with Meta held, chord Meta+Space) returns `LAYOUT_CHANGED`
rather than the claimed replacement-lookup result. -/
theorem C3_counterexample :
    (InputAnalyzer.process_key
      { buffer := [KEY_G], active_modifiers := {KEY_LEFTMETA},
        switch_hotkey := [KEY_LEFTMETA, KEY_SPACE] } KEY_SPACE 1).1.action =
      .LAYOUT_CHANGED ∧
    ActionType.LAYOUT_CHANGED ≠ .REPLACE_TEXT ∧
    ActionType.LAYOUT_CHANGED ≠ .NONE := by
  decide

/-- C4, counterexample: with only Right-Ctrl held, the PAUSE hotkey yields
`CORRECT_WRONG_LAYOUT`, not the `INVERT_CASE` the claim requires for every
left/right Ctrl variant: the code consults only the left modifiers. -/
theorem C4_counterexample :
    (InputAnalyzer.process_key { active_modifiers := {KEY_RIGHTCTRL} }
      KEY_PAUSE 1).1.action = .CORRECT_WRONG_LAYOUT ∧
    ActionType.CORRECT_WRONG_LAYOUT ≠ .INVERT_CASE := by
  decide

/-- C5, counterexample: `'х'` is in the layout alphabet (secondary of the
left-bracket key), yet switching twice yields `"Х"`, not `"х"` — the
translation table collapses case through the punctuation keys. -/
theorem C5_counterexample :
    'х' ∈ layout_alphabet ∧
    switch_layout (switch_layout "х") = "Х" ∧
    "Х" ≠ "х" := by
  decide

/-- C7, counterexample: with the first uinput write failing, the erase of a
one-key word emits nothing, yet the action is not abandoned — the switch
chord and the retype are still emitted afterwards. -/
theorem C7_counterexample :
    (PuntoService.perform_switch
      { analyzer := {}, dev := { failing := fun n => n == 0 } } [KEY_G]).dev.log =
      [(KEY_LEFTMETA, 1), (KEY_SPACE, 1), (KEY_SPACE, 0), (KEY_LEFTMETA, 0),
       (KEY_G, 1), (KEY_G, 0)] ∧
    (PuntoService.perform_switch
      { analyzer := {}, dev := { failing := fun n => n == 0 } } [KEY_G]).dev.log ≠ [] := by
  decide

/-- C10, counterexample: with the single-element switch chord
`[KEY_LEFTSHIFT]`, a key-down of that element is swallowed by the modifier
branch and returns `NONE`, refuting the claim that every key-down of a
singleton chord's element yields `LAYOUT_CHANGED`. -/
theorem C10_counterexample :
    (InputAnalyzer.process_key { switch_hotkey := [KEY_LEFTSHIFT] }
      KEY_LEFTSHIFT 1).1.action = .NONE ∧
    ActionType.NONE ≠ .LAYOUT_CHANGED := by
  decide

/-- Character-level involution of the layout-switch table on the letter-key
alphabet. -/
theorem switchChar_invol : ∀ c ∈ letter_alphabet, switchChar (switchChar c) = c := by
  decide

/-- C5, amended: the layout-switch transform is an involution on strings
composed solely of characters produced by the 26 letter keys (either
layout, either case); the characters tied to punctuation keys are
excluded, as the counterexample forces. -/
theorem C5_amended_thm (s : String) (h : ∀ c ∈ s.data, c ∈ letter_alphabet) :
    switch_layout (switch_layout s) = s := by
  cases s with
  | mk l =>
    show String.mk ((l.map switchChar).map switchChar) = String.mk l
    rw [List.map_map]
    have hmap : l.map (switchChar ∘ switchChar) = l := by
      conv_rhs => rw [← List.map_id l]
      exact List.map_congr_left (fun c hc => switchChar_invol c (h c hc))
    rw [hmap]

/-- C5, witness for the amended involution at the string `"ghbdtn"`. -/
theorem C5_amended_witness :
    switch_layout (switch_layout "ghbdtn") = "ghbdtn" :=
  C5_amended_thm "ghbdtn" (by decide)

/-- A paused analyzer ignores every event and keeps its state. -/
theorem process_key_paused (a : InputAnalyzer) (k v : Nat) (hp : a.paused = true) :
    a.process_key k v = (noneResult, a) := by
  unfold InputAnalyzer.process_key
  rw [if_pos hp]

/-- A paused analyzer maps every event list to `NONE` results and keeps its
state. -/
theorem analyzerRun_paused (a : InputAnalyzer) (evs : List (Nat × Nat))
    (hp : a.paused = true) :
    analyzerRun a evs = (evs.map (fun _ => noneResult), a) := by
  induction evs with
  | nil => rfl
  | cons e rest ih =>
    simp only [analyzerRun, process_key_paused a e.1 e.2 hp, ih, List.map]

/-- C8: pausing is an invariant-preserving mode.  From any state satisfying
the reachability invariant (paused implies empty buffer), `set_paused true`
leaves an empty buffer, and every subsequent event sequence processed while
paused returns only `NONE` and keeps the state — in particular the buffer
stays empty — until `set_paused false`. -/
theorem C8_thm (a : InputAnalyzer) (evs : List (Nat × Nat))
    (hinv : a.paused = true → a.buffer = []) :
    (a.set_paused true).buffer = [] ∧ (a.set_paused true).paused = true ∧
    (analyzerRun (a.set_paused true) evs).2 = a.set_paused true ∧
    ∀ r ∈ (analyzerRun (a.set_paused true) evs).1, r.action = .NONE := by
  have hb : (a.set_paused true).buffer = [] ∧ (a.set_paused true).paused = true := by
    unfold InputAnalyzer.set_paused InputAnalyzer.reset
    cases hpv : a.paused with
    | false => simp
    | true => simp [hinv hpv]
  have hrun := analyzerRun_paused (a.set_paused true) evs hb.2
  refine ⟨hb.1, hb.2, by rw [hrun], ?_⟩
  rw [hrun]
  intro r hr
  rcases List.mem_map.mp hr with ⟨e, _, rfl⟩
  rfl

/-- C8, witness: a fresh analyzer paused and fed three arbitrary keystrokes
keeps an empty buffer and returns `NONE` for each. -/
theorem C8_witness :
    ((({} : InputAnalyzer).set_paused true).buffer = [] ∧
      (({} : InputAnalyzer).set_paused true).paused = true ∧
      (analyzerRun (({} : InputAnalyzer).set_paused true)
        [(KEY_G, 1), (KEY_SPACE, 1), (KEY_PAUSE, 1)]).2 =
        ({} : InputAnalyzer).set_paused true ∧
      ∀ r ∈ (analyzerRun (({} : InputAnalyzer).set_paused true)
        [(KEY_G, 1), (KEY_SPACE, 1), (KEY_PAUSE, 1)]).1, r.action = .NONE) :=
  C8_thm {} [(KEY_G, 1), (KEY_SPACE, 1), (KEY_PAUSE, 1)] (fun _ => rfl)

/-- C6: the orchestrator suppresses `SWITCH_LAYOUT` whose target equals the
shadow layout — state, device log and shadow index all unchanged — and
realizes the switch (erase, chord, retype, flipped shadow index) only when
the target differs. -/
theorem C6_thm (s : PuntoService) (res : AnalysisResult)
    (ha : res.action = .SWITCH_LAYOUT) :
    (res.target_layout_index = s.current_layout_index → s.dispatch res = s) ∧
    (∀ p, res.payload = some p → p ≠ [] →
      res.target_layout_index ≠ s.current_layout_index →
      s.dispatch res = s.perform_switch p ∧
      (s.dispatch res).current_layout_index = 1 - s.current_layout_index) := by
  unfold PuntoService.dispatch
  rw [ha]
  constructor
  · intro heq
    by_cases ht : payloadTruthy res = true <;> simp [ht, heq]
  · intro p hp hpne hne
    have ht : payloadTruthy res = true := by
      unfold payloadTruthy
      rw [hp]
      cases p with
      | nil => exact absurd rfl hpne
      | cons x xs => rfl
    simp only [ht, hp]
    simp [hne, PuntoService.perform_switch]

/-- C6, witness: a `SWITCH_LAYOUT` result targeting the current shadow layout
leaves a concrete service state untouched. -/
theorem C6_witness :
    PuntoService.dispatch { analyzer := {} }
        { action := .SWITCH_LAYOUT, target_layout_index := 0,
          payload := some [KEY_G, KEY_H, KEY_B] } =
      { analyzer := {} } :=
  (C6_thm { analyzer := {} }
    { action := .SWITCH_LAYOUT, target_layout_index := 0,
      payload := some [KEY_G, KEY_H, KEY_B] } rfl).1 rfl

/-- C9: the selection round-trip aborts — the clipboard is left untouched and
no Ctrl+V paste combo is emitted beyond the initial Ctrl+C copy — whenever
the read yields no text or the pure transform leaves the text unchanged;
and `NUM_TO_WORDS` on text that does not parse as a Python float is such an
unchanged transform. -/
theorem C9_thm (n2w : String → String) (s : SelectionState) (act : ActionType)
    (h : selection_aborts n2w s.clipboard act = true) :
    (perform_selection_correction n2w s act).clipboard = s.clipboard ∧
    (perform_selection_correction n2w s act).dev =
      send_combo s.dev [KEY_LEFTCTRL] KEY_C ∧
    (∀ t, pyFloatOk (cleanNumeric t) = false →
      selection_transform n2w .NUM_TO_WORDS t = t) := by
  have hnum : ∀ t, pyFloatOk (cleanNumeric t) = false →
      selection_transform n2w .NUM_TO_WORDS t = t := by
    intro t hpf
    unfold selection_transform number_to_text
    simp [hpf]
  unfold perform_selection_correction
  unfold selection_aborts at h
  cases hc : s.clipboard with
  | none => exact ⟨rfl, rfl, hnum⟩
  | some t =>
    rw [hc] at h
    rcases (Bool.or_eq_true _ _).mp h with h1 | h2
    · have hte : t.isEmpty = true := (String.isEmpty_iff t).mpr (by simpa using h1)
      refine ⟨?_, ?_, hnum⟩ <;> simp [hte]
    · have htr : selection_transform n2w act t = t := by simpa using h2
      by_cases hte : t.isEmpty = true
      · refine ⟨?_, ?_, hnum⟩ <;> simp [hte]
      · refine ⟨?_, ?_, hnum⟩ <;> simp [hte, htr]

/-- C9, witness: NUM_TO_WORDS on the non-numeric selection `"привет"` leaves
the clipboard untouched with only the copy combo emitted. -/
theorem C9_witness :
    selection_aborts (fun _ => "сто") (some "привет") .NUM_TO_WORDS = true ∧
    (perform_selection_correction (fun _ => "сто")
      { clipboard := some "привет" } .NUM_TO_WORDS).clipboard = some "привет" ∧
    (perform_selection_correction (fun _ => "сто")
      { clipboard := some "привет" } .NUM_TO_WORDS).dev =
      send_combo ({} : UinputDevice) [KEY_LEFTCTRL] KEY_C :=
  ⟨by decide,
   (C9_thm (fun _ => "сто") { clipboard := some "привет" } .NUM_TO_WORDS (by decide)).1,
   (C9_thm (fun _ => "сто") { clipboard := some "привет" } .NUM_TO_WORDS (by decide)).2.1⟩

/-- The Boolean chord test of the code agrees with the claim's wording. -/
theorem chordFires_iff (a : InputAnalyzer) (k : Nat) :
    chordFires a k = true ↔ chord_completes_spec a k := by
  unfold chordFires chord_completes_spec
  simp [List.all_eq_true, List.isEmpty_iff, Bool.and_eq_true, beq_iff_eq, and_assoc]

/-- Reduction of `process_key` past the paused, modifier and key-up branches
for a non-modifier key-down or key-repeat. -/
theorem process_key_unfold_nonmod (a : InputAnalyzer) (key v : Nat)
    (hp : a.paused = false) (hm : key ∉ modifier_keys) (hv : v ≠ 0) :
    a.process_key key v =
      (if chordFires a key then ({ action := .LAYOUT_CHANGED }, a.reset)
       else if key = KEY_PAUSE then
         (if a.buffer.isEmpty then
            ({ action :=
                if decide (KEY_LEFTCTRL ∈ a.active_modifiers) &&
                    decide (KEY_LEFTSHIFT ∈ a.active_modifiers) then
                  ActionType.TRANSLITERATE
                else if decide (KEY_LEFTCTRL ∈ a.active_modifiers) then .INVERT_CASE
                else if decide (KEY_LEFTALT ∈ a.active_modifiers) then .NUM_TO_WORDS
                else if decide (KEY_LEFTSHIFT ∈ a.active_modifiers) then .INVERT_CASE
                else .CORRECT_WRONG_LAYOUT }, a)
          else
            ({ action :=
                if decide (KEY_LEFTCTRL ∈ a.active_modifiers) &&
                    decide (KEY_LEFTSHIFT ∈ a.active_modifiers) then
                  ActionType.TRANSLITERATE
                else if decide (KEY_LEFTCTRL ∈ a.active_modifiers) then .INVERT_CASE
                else if decide (KEY_LEFTALT ∈ a.active_modifiers) then .NUM_TO_WORDS
                else if decide (KEY_LEFTSHIFT ∈ a.active_modifiers) then .INVERT_CASE
                else .CORRECT_WRONG_LAYOUT, payload := some a.buffer }, a))
       else if key = KEY_BACKSPACE then
         (noneResult, { a with buffer := a.buffer.dropLast })
       else if key ∈ word_boundary_keys then
         (match a.check_replacements with
          | some res => (res, a.reset)
          | none => (noneResult, a.reset))
       else if (keyChars key).isNone then (noneResult, a.reset)
       else
         (InputAnalyzer.analyze_buffer { a with buffer := a.buffer ++ [key] },
          { a with buffer := a.buffer ++ [key] })) := by
  unfold InputAnalyzer.process_key
  rw [if_neg (by simp [hp]), if_neg hm, if_neg hv]

/-- The code's decide-chain for the PAUSE hotkey equals the left-modifier
selection table. -/
theorem act_eq_spec (mods : Finset Nat) :
    (if decide (KEY_LEFTCTRL ∈ mods) && decide (KEY_LEFTSHIFT ∈ mods) then
       ActionType.TRANSLITERATE
     else if decide (KEY_LEFTCTRL ∈ mods) then .INVERT_CASE
     else if decide (KEY_LEFTALT ∈ mods) then .NUM_TO_WORDS
     else if decide (KEY_LEFTSHIFT ∈ mods) then .INVERT_CASE
     else .CORRECT_WRONG_LAYOUT) = hotkey_action_spec mods := by
  unfold hotkey_action_spec
  by_cases h1 : KEY_LEFTCTRL ∈ mods <;> by_cases h2 : KEY_LEFTSHIFT ∈ mods <;>
    by_cases h3 : KEY_LEFTALT ∈ mods <;> simp [h1, h2, h3]

/-- The hotkey selection never yields `LAYOUT_CHANGED`. -/
theorem hotkey_action_spec_ne (mods : Finset Nat) :
    hotkey_action_spec mods ≠ .LAYOUT_CHANGED := by
  unfold hotkey_action_spec
  split_ifs <;> decide

/-- The replacement check agrees with the specification-side lookup. -/
theorem check_replacements_eq (a : InputAnalyzer) :
    a.check_replacements =
      (if a.buffer.isEmpty then none else boundary_lookup_spec a).map
        (fun t => { action := .REPLACE_TEXT, payload := some a.buffer,
                    text_payload := some t, confidence := 1 }) := by
  unfold InputAnalyzer.check_replacements boundary_lookup_spec
  by_cases hb : a.buffer.isEmpty = true
  · simp [hb]
  · simp only [if_neg hb]
    cases dictGet a.autoreplace (en_render a.buffer) with
    | some t => rfl
    | none =>
      cases dictGet a.autoreplace (ru_render a.buffer) with
      | some t => rfl
      | none =>
        cases dictGet a.autocorrect (en_render a.buffer) with
        | some t => rfl
        | none =>
          cases dictGet a.autocorrect (ru_render a.buffer) with
          | some t => rfl
          | none => rfl

/-- A successful replacement check always carries `REPLACE_TEXT`. -/
theorem check_replacements_action (a : InputAnalyzer) (r : AnalysisResult)
    (h : a.check_replacements = some r) : r.action = .REPLACE_TEXT := by
  rw [check_replacements_eq] at h
  cases hx : (if a.buffer.isEmpty then none else boundary_lookup_spec a) with
  | none => rw [hx] at h; cases h
  | some t =>
    rw [hx] at h
    injection h with h2
    rw [← h2]

/-- The buffer analysis yields only `NONE` or `SWITCH_LAYOUT`. -/
theorem analyze_buffer_action (a : InputAnalyzer) :
    a.analyze_buffer.action = .NONE ∨ a.analyze_buffer.action = .SWITCH_LAYOUT := by
  unfold InputAnalyzer.analyze_buffer
  by_cases h : a.buffer.length < 3
  · rw [if_pos h]; left; rfl
  · rw [if_neg h]
    cases hx : analyze (en_render a.buffer) (ru_render a.buffer) with
    | none => left; rfl
    | some l =>
      cases l with
      | en => right; rfl
      | ru => right; rfl

/-- C3, amended: on a key-down of a word-boundary scancode with a non-empty
buffer — provided the key-down does not complete the switch chord (then
`LAYOUT_CHANGED` wins, as the counterexample shows) and given the
reachability invariant that a paused analyzer has an empty buffer — the
Analyzer returns `REPLACE_TEXT` with a copy of the buffer and the first
hit of the autoreplace-then-autocorrect lookup over both renderings, or
`NONE` on no hit; the buffer is empty afterwards in every case. -/
theorem C3_amended_thm (a : InputAnalyzer) (key : Nat)
    (hb : a.buffer ≠ [])
    (hinv : a.paused = true → a.buffer = [])
    (hkey : key ∈ word_boundary_keys)
    (hchord : ¬ chord_completes_spec a key) :
    (a.process_key key 1).2.buffer = [] ∧
    (a.process_key key 1).1 =
      (match boundary_lookup_spec a with
       | some t => { action := .REPLACE_TEXT, payload := some a.buffer,
                     text_payload := some t, confidence := 1 }
       | none => noneResult) := by
  have hp : a.paused = false := by
    cases hpv : a.paused
    · rfl
    · exact absurd (hinv hpv) hb
  have hkey5 : key = KEY_SPACE ∨ key = KEY_ENTER ∨ key = KEY_TAB ∨
      key = KEY_COMMA ∨ key = KEY_DOT := by
    simpa [word_boundary_keys] using hkey
  have hm : key ∉ modifier_keys := by
    rcases hkey5 with rfl | rfl | rfl | rfl | rfl <;> decide
  have hpk : key ≠ KEY_PAUSE := by
    rcases hkey5 with rfl | rfl | rfl | rfl | rfl <;> decide
  have hbs : key ≠ KEY_BACKSPACE := by
    rcases hkey5 with rfl | rfl | rfl | rfl | rfl <;> decide
  have hcf : chordFires a key = false := by
    cases hx : chordFires a key
    · rfl
    · exact absurd ((chordFires_iff a key).mp hx) hchord
  have hbe : a.buffer.isEmpty = false := by
    cases hq : a.buffer with
    | nil => exact absurd hq hb
    | cons x xs => rfl
  rw [process_key_unfold_nonmod a key 1 hp hm (by decide),
    if_neg (by simp [hcf]), if_neg hpk, if_neg hbs, if_pos hkey,
    check_replacements_eq, hbe]
  simp only [Bool.false_eq_true, if_false]
  cases boundary_lookup_spec a <;> exact ⟨rfl, rfl⟩

/-- C3, witness: the buffered word `omw` followed by Space is replaced via
`autoreplace` by `on my way`, and the buffer is cleared. -/
theorem C3_witness :
    (InputAnalyzer.process_key
      { autoreplace := [("omw", "on my way")], buffer := [KEY_O, KEY_M, KEY_W] }
      KEY_SPACE 1).2.buffer = [] ∧
    (InputAnalyzer.process_key
      { autoreplace := [("omw", "on my way")], buffer := [KEY_O, KEY_M, KEY_W] }
      KEY_SPACE 1).1 =
      { action := .REPLACE_TEXT, payload := some [KEY_O, KEY_M, KEY_W],
        text_payload := some "on my way", confidence := 1 } := by
  have h := C3_amended_thm
    { autoreplace := [("omw", "on my way")], buffer := [KEY_O, KEY_M, KEY_W] }
    KEY_SPACE (by decide) (fun hx => by cases hx) (by decide)
    (fun hc => by exact absurd hc.1 (by decide))
  exact ⟨h.1, by rw [h.2]; decide⟩

/-- C4, amended: on a PAUSE key-down or key-repeat that does not complete the
switch chord, a non-paused Analyzer returns the action selected by the
held LEFT modifiers — LCtrl+LShift transliterate, LCtrl invert case, LAlt
number-to-words, LShift invert case, otherwise correct-wrong-layout; the
right-hand modifier variants are ignored by the code — with a copy of the
buffer as payload iff the buffer is non-empty, and the state unchanged. -/
theorem C4_amended_thm (a : InputAnalyzer) (v : Nat)
    (hp : a.paused = false)
    (hchord : ¬ chord_completes_spec a KEY_PAUSE)
    (hv : v = 1 ∨ v = 2) :
    (a.process_key KEY_PAUSE v).1.action = hotkey_action_spec a.active_modifiers ∧
    (a.process_key KEY_PAUSE v).1.payload =
      (if a.buffer = [] then none else some a.buffer) ∧
    (a.process_key KEY_PAUSE v).2 = a := by
  have hv0 : v ≠ 0 := by rcases hv with rfl | rfl <;> decide
  have hcf : chordFires a KEY_PAUSE = false := by
    cases hx : chordFires a KEY_PAUSE
    · rfl
    · exact absurd ((chordFires_iff a KEY_PAUSE).mp hx) hchord
  rw [process_key_unfold_nonmod a KEY_PAUSE v hp (by decide) hv0,
    if_neg (by simp [hcf]), if_pos rfl]
  by_cases hbuf : a.buffer.isEmpty = true
  · have hnil : a.buffer = [] := List.isEmpty_iff.mp hbuf
    rw [if_pos hbuf]
    exact ⟨act_eq_spec a.active_modifiers, by simp [hnil], rfl⟩
  · have hnil : ¬(a.buffer = []) := fun hh => hbuf (List.isEmpty_iff.mpr hh)
    rw [if_neg hbuf]
    exact ⟨act_eq_spec a.active_modifiers, by simp [hnil], rfl⟩

/-- C4, witness: with only Left-Ctrl held and an empty buffer, PAUSE yields
`INVERT_CASE` with no payload. -/
theorem C4_witness :
    (InputAnalyzer.process_key { active_modifiers := {KEY_LEFTCTRL} }
      KEY_PAUSE 1).1.action = .INVERT_CASE ∧
    (InputAnalyzer.process_key { active_modifiers := {KEY_LEFTCTRL} }
      KEY_PAUSE 1).1.payload = none := by
  have h := C4_amended_thm { active_modifiers := {KEY_LEFTCTRL} } 1 rfl
    (fun hc => by exact absurd hc.1 (by decide)) (Or.inl rfl)
  exact ⟨by rw [h.1]; decide, by rw [h.2.1]; simp⟩

/-- C10, amended: for a non-paused Analyzer and a scancode that is not a
modifier key (a chord ending in a modifier is swallowed by the modifier
branch, as the counterexample shows), `process_key` returns
`LAYOUT_CHANGED` exactly when the event is a key-down or key-repeat, the
chord is non-empty with the scancode as its last element, and all prior
chord elements are held; the buffer is cleared when it does. -/
theorem C10_amended_thm (a : InputAnalyzer) (key v : Nat)
    (hp : a.paused = false) (hm : key ∉ modifier_keys)
    (hv : v = 0 ∨ v = 1 ∨ v = 2) :
    ((a.process_key key v).1.action = .LAYOUT_CHANGED ↔
      ((v = 1 ∨ v = 2) ∧ chord_completes_spec a key)) ∧
    ((v = 1 ∨ v = 2) → chord_completes_spec a key →
      (a.process_key key v).2.buffer = []) := by
  rcases hv with rfl | hv12
  · have h0a : (a.process_key key 0).1.action = ActionType.NONE := by
      unfold InputAnalyzer.process_key
      rw [if_neg (by simp [hp]), if_neg hm, if_pos rfl]
      rfl
    rw [h0a]
    constructor
    · constructor
      · intro hact; exact absurd hact (by decide)
      · rintro ⟨h12, -⟩
        rcases h12 with h | h <;> exact absurd h (by decide)
    · rintro (h | h) <;> exact absurd h (by decide)
  · have hv0 : v ≠ 0 := by rcases hv12 with rfl | rfl <;> decide
    rw [process_key_unfold_nonmod a key v hp hm hv0]
    cases hcf : chordFires a key with
    | true =>
      have hs := (chordFires_iff a key).mp hcf
      simp only [if_pos rfl]
      exact ⟨⟨fun _ => ⟨hv12, hs⟩, fun _ => rfl⟩, fun _ _ => rfl⟩
    | false =>
      have hnspec : ¬ chord_completes_spec a key := fun hs => by
        rw [(chordFires_iff a key).mpr hs] at hcf
        cases hcf
      have hne :
          (if key = KEY_PAUSE then
            (if a.buffer.isEmpty then
               ({ action :=
                   if decide (KEY_LEFTCTRL ∈ a.active_modifiers) &&
                       decide (KEY_LEFTSHIFT ∈ a.active_modifiers) then
                     ActionType.TRANSLITERATE
                   else if decide (KEY_LEFTCTRL ∈ a.active_modifiers) then .INVERT_CASE
                   else if decide (KEY_LEFTALT ∈ a.active_modifiers) then .NUM_TO_WORDS
                   else if decide (KEY_LEFTSHIFT ∈ a.active_modifiers) then .INVERT_CASE
                   else .CORRECT_WRONG_LAYOUT }, a)
             else
               ({ action :=
                   if decide (KEY_LEFTCTRL ∈ a.active_modifiers) &&
                       decide (KEY_LEFTSHIFT ∈ a.active_modifiers) then
                     ActionType.TRANSLITERATE
                   else if decide (KEY_LEFTCTRL ∈ a.active_modifiers) then .INVERT_CASE
                   else if decide (KEY_LEFTALT ∈ a.active_modifiers) then .NUM_TO_WORDS
                   else if decide (KEY_LEFTSHIFT ∈ a.active_modifiers) then .INVERT_CASE
                   else .CORRECT_WRONG_LAYOUT, payload := some a.buffer }, a))
          else if key = KEY_BACKSPACE then
            (noneResult, { a with buffer := a.buffer.dropLast })
          else if key ∈ word_boundary_keys then
            (match a.check_replacements with
             | some res => (res, a.reset)
             | none => (noneResult, a.reset))
          else if (keyChars key).isNone then (noneResult, a.reset)
          else
            (InputAnalyzer.analyze_buffer { a with buffer := a.buffer ++ [key] },
             { a with buffer := a.buffer ++ [key] })).1.action ≠
            ActionType.LAYOUT_CHANGED := by
        by_cases hpk : key = KEY_PAUSE
        · rw [if_pos hpk]
          by_cases hbuf : a.buffer.isEmpty = true
          · rw [if_pos hbuf]
            dsimp only
            simp only [act_eq_spec]
            exact hotkey_action_spec_ne a.active_modifiers
          · rw [if_neg hbuf]
            dsimp only
            simp only [act_eq_spec]
            exact hotkey_action_spec_ne a.active_modifiers
        · rw [if_neg hpk]
          by_cases hbk : key = KEY_BACKSPACE
          · rw [if_pos hbk]
            intro hx
            cases hx
          · rw [if_neg hbk]
            by_cases hwb : key ∈ word_boundary_keys
            · rw [if_pos hwb]
              cases hcr : a.check_replacements with
              | some res =>
                dsimp only
                rw [check_replacements_action a res hcr]
                decide
              | none =>
                dsimp only
                intro hx
                cases hx
            · rw [if_neg hwb]
              by_cases hkc : (keyChars key).isNone = true
              · rw [if_pos hkc]
                intro hx
                cases hx
              · rw [if_neg hkc]
                dsimp only
                rcases analyze_buffer_action { a with buffer := a.buffer ++ [key] } with
                  hx | hx <;> rw [hx] <;> decide
      simp only [Bool.false_eq_true, if_false]
      refine ⟨⟨fun hact => absurd hact hne, ?_⟩, ?_⟩
      · rintro ⟨-, hs⟩
        exact absurd hs hnspec
      · intro _ hs
        exact absurd hs hnspec

/-- C10, witness: with chord Meta+Space and Meta held, a Space key-down
returns `LAYOUT_CHANGED` and clears the buffer. -/
theorem C10_witness :
    (InputAnalyzer.process_key
      { switch_hotkey := [KEY_LEFTMETA, KEY_SPACE],
        active_modifiers := {KEY_LEFTMETA}, buffer := [KEY_G] }
      KEY_SPACE 1).1.action = .LAYOUT_CHANGED ∧
    (InputAnalyzer.process_key
      { switch_hotkey := [KEY_LEFTMETA, KEY_SPACE],
        active_modifiers := {KEY_LEFTMETA}, buffer := [KEY_G] }
      KEY_SPACE 1).2.buffer = [] := by
  have h := C10_amended_thm
    { switch_hotkey := [KEY_LEFTMETA, KEY_SPACE],
      active_modifiers := {KEY_LEFTMETA}, buffer := [KEY_G] }
    KEY_SPACE 1 rfl (by decide) (Or.inr (Or.inl rfl))
  exact ⟨h.1.mpr ⟨Or.inl rfl, by decide, by decide, by decide⟩,
    h.2 (Or.inl rfl) ⟨by decide, by decide, by decide⟩⟩

/-- C2, amended: for every non-empty string the code's structural score is
exactly the claimed walk (the code returns 0 on the empty string, where
the claimed formula gives +5), and the verdict is language 0 iff
`score(s0) > 0 ∧ score(s1) < 0`, language 1 iff the converse, undecided
otherwise. -/
theorem C2_amended_thm :
    (∀ (text : String) (lang : Lang), text ≠ "" →
      score_structure text lang = score_spec text lang) ∧
    (∀ s0 s1 : String,
      (analyze s0 s1 = some .en ↔
        score_structure s0 .en > 0 ∧ score_structure s1 .ru < 0) ∧
      (analyze s0 s1 = some .ru ↔
        score_structure s1 .ru > 0 ∧ score_structure s0 .en < 0) ∧
      (analyze s0 s1 = none ↔
        ¬(score_structure s0 .en > 0 ∧ score_structure s1 .ru < 0) ∧
        ¬(score_structure s1 .ru > 0 ∧ score_structure s0 .en < 0))) := by
  constructor
  · intro text lang h
    have he : text.isEmpty = false := by
      cases hx : text.isEmpty
      · rfl
      · exact absurd ((String.isEmpty_iff text).mp hx) h
    unfold score_structure score_spec
    rw [he]
    simp only [Bool.false_eq_true, if_false]
    refine if_congr Iff.rfl rfl (if_congr ?_ rfl rfl)
    simp [List.any_eq_true, not_exists]
  · intro s0 s1
    unfold analyze
    dsimp only
    by_cases h1 : score_structure s0 .en > 0 ∧ score_structure s1 .ru < 0
    · rw [if_pos h1]
      refine ⟨by simp [h1], ?_, by simp [h1]⟩
      constructor
      · intro hx; simp at hx
      · rintro ⟨-, hen⟩
        have := h1.1
        omega
    · rw [if_neg h1]
      by_cases h2 : score_structure s1 .ru > 0 ∧ score_structure s0 .en < 0
      · rw [if_pos h2]
        exact ⟨by simp [h1], by simp [h2], by simp [h2]⟩
      · rw [if_neg h2]
        exact ⟨by simp [h1], by simp [h2], by simp [h1, h2]⟩

/-- C2, witness: the amended score equality evaluated at `"ghbdtn"`. -/
theorem C2_amended_witness :
    "ghbdtn" ≠ "" ∧ score_structure "ghbdtn" .en = score_spec "ghbdtn" .en :=
  ⟨by decide, C2_amended_thm.1 "ghbdtn" .en (by decide)⟩

/-- One uinput write always counts one attempt, failed or not. -/
theorem wr_attempts (d : UinputDevice) (k v : Nat) :
    (d.wr k v).1.attempts = d.attempts + 1 := by
  unfold UinputDevice.wr
  by_cases hf : d.failing d.attempts = true <;> simp [hf]

/-- A press-and-release emission makes at least one write attempt. -/
theorem send_key_tap_ge (d : UinputDevice) (k : Nat) :
    d.attempts + 1 ≤ (send_key d k true true).attempts := by
  by_cases hf : (d.wr k 1).2 = true <;> simp [send_key, hf, wr_attempts]

/-- A press-only emission makes exactly one write attempt. -/
theorem send_key_press_only (d : UinputDevice) (k : Nat) :
    (send_key d k true false).attempts = d.attempts + 1 := by
  by_cases hf : (d.wr k 1).2 = true <;> simp [send_key, hf, wr_attempts]

/-- A release-only emission makes exactly one write attempt. -/
theorem send_key_rel_only (d : UinputDevice) (k : Nat) :
    (send_key d k false true).attempts = d.attempts + 1 := by
  simp [send_key, wr_attempts]

/-- Erasing `n` characters makes at least `n` write attempts, whatever fails. -/
theorem backspace_attempts_ge (d : UinputDevice) (n : Nat) :
    d.attempts + n ≤ (backspace d n).attempts := by
  induction n generalizing d with
  | zero => simp [backspace]
  | succ m ih =>
    have h1 := send_key_tap_ge d KEY_BACKSPACE
    have h2 := ih (send_key d KEY_BACKSPACE true true)
    calc d.attempts + (m + 1) ≤ (send_key d KEY_BACKSPACE true true).attempts + m := by
          omega
    _ ≤ (backspace (send_key d KEY_BACKSPACE true true) m).attempts := h2
    _ = (backspace d (m + 1)).attempts := rfl

/-- The press fold of the chord makes one attempt per element. -/
theorem foldl_press_attempts (l : List Nat) (d : UinputDevice) :
    (l.foldl (fun dv k => send_key dv k true false) d).attempts =
      d.attempts + l.length := by
  induction l generalizing d with
  | nil => simp
  | cons x xs ih =>
    rw [List.foldl_cons, ih, send_key_press_only]
    simp only [List.length_cons]
    omega

/-- The release fold of the chord makes one attempt per element. -/
theorem foldl_rel_attempts (l : List Nat) (d : UinputDevice) :
    (l.foldl (fun dv k => send_key dv k false true) d).attempts =
      d.attempts + l.length := by
  induction l generalizing d with
  | nil => simp
  | cons x xs ih =>
    rw [List.foldl_cons, ih, send_key_rel_only]
    simp only [List.length_cons]
    omega

/-- Emitting the switch chord makes exactly two attempts per chord element. -/
theorem injector_switch_attempts (d : UinputDevice) (ks : List Nat) :
    (Injector.switch_layout d ks).attempts = d.attempts + 2 * ks.length := by
  unfold Injector.switch_layout
  rw [foldl_rel_attempts, foldl_press_attempts, List.length_reverse]
  omega

/-- Retyping a sequence makes at least one write attempt per key. -/
theorem foldl_tap_attempts_ge (l : List Nat) (d : UinputDevice) :
    d.attempts + l.length ≤
      (l.foldl (fun dv k => send_key dv k true true) d).attempts := by
  induction l generalizing d with
  | nil => simp
  | cons x xs ih =>
    rw [List.foldl_cons]
    simp only [List.length_cons]
    have h1 := send_key_tap_ge d x
    have h2 := ih (send_key d x true true)
    omega

/-- C7, amended: a failed uinput write is logged and its key event dropped
(the release is skipped when the press fails), but the action is not
abandoned — every erase key, chord element and retyped key is still
attempted (at least one write per erase and retyped key and exactly two
per chord element, whatever the failure pattern), the service keeps
running, and the analyzer buffer is reset by the completing switch with
the shadow layout flipped. -/
theorem C7_amended_thm (s : PuntoService) (p : List Nat) :
    (s.perform_switch p).analyzer.buffer = [] ∧
    (s.perform_switch p).current_layout_index = 1 - s.current_layout_index ∧
    s.dev.attempts + p.length + 2 * s.layout_switch_hotkey.length + p.length ≤
      (s.perform_switch p).dev.attempts := by
  refine ⟨rfl, rfl, ?_⟩
  unfold PuntoService.perform_switch type_sequence
  dsimp only
  have h1 := backspace_attempts_ge s.dev p.length
  have h2 := injector_switch_attempts (backspace s.dev p.length) s.layout_switch_hotkey
  have h3 := foldl_tap_attempts_ge p
    (Injector.switch_layout (backspace s.dev p.length) s.layout_switch_hotkey)
  omega

end Punto
